import Mathlib

/-!
Verification development for the IPTV EPG core: a shallow embedding of the
guide parser (`parseXMLTV`), the temporal query engine (`getCurrentProgram`,
`getNextProgram`, `getProgramProgress`, the EPG grid window filter), the tiered
fuzzy name matching used by the three EPG consumers, the fetch/decompression
pipeline (`loadEPGFromURL`), and the store-level refresh coordinator
(`loadEPG`), together with proofs of the specified properties.

Conventions of the embedding:
* timestamps (`Date.getTime()` milliseconds) are modelled as `Int`;
* JavaScript `Map` objects are modelled as insertion-ordered association
  lists, matching the insertion-order iteration of `Map`;
* exceptions (`throw new Error(msg)`) are modelled as `Except String`;
* the comparator sort `progs.sort((a, b) => a.start - b.start)` is modelled
  as an insertion sort by `start`, which realises the same comparator.
-/

namespace IptvEpg

/-- A parsed programme entry (interface `EPGProgram` in `epgParser`). -/
structure EPGProgram where
  channelId : String
  title : String
  description : Option String
  start : Int
  stop : Int
  category : Option String
  icon : Option String
  deriving DecidableEq, Repr

/-- A parsed channel entry (interface `EPGChannel`). -/
structure EPGChannel where
  id : String
  name : String
  icon : Option String
  deriving DecidableEq, Repr

/-- The Guide (interface `EPGData`): channel map and per-channel program
lists, both keyed by channel id.  JavaScript `Map`s are modelled as
insertion-ordered association lists. -/
structure EPGData where
  channels : List (String × EPGChannel)
  programs : List (String × List EPGProgram)
  deriving DecidableEq, Repr

/-! ## Temporal query engine (`epgParser` exports) -/

/-- `getCurrentProgram`: first program with `start <= now && stop > now`. -/
def getCurrentProgram (programs : List EPGProgram) (now : Int) : Option EPGProgram :=
  programs.find? (fun p => decide (p.start ≤ now) && decide (now < p.stop))

/-- `getNextProgram`: first program with `start > now`. -/
def getNextProgram (programs : List EPGProgram) (now : Int) : Option EPGProgram :=
  programs.find? (fun p => decide (now < p.start))

/-- `getProgramProgress`: clamped linear interpolation of `now` between
`start` and `stop`, with a degenerate-interval guard (`duration <= 0` gives
0).  The JavaScript number arithmetic is modelled over `ℚ`. -/
def getProgramProgress (program : EPGProgram) (now : Int) : ℚ :=
  let elapsed : ℚ := (now : ℚ) - (program.start : ℚ)
  let duration : ℚ := (program.stop : ℚ) - (program.start : ℚ)
  if duration ≤ 0 then 0 else min 100 (max 0 (elapsed / duration * 100))

/-! ## EPG grid window query (`EPGGrid.tsx`) -/

/-- The window filter inside `EPGGrid.findPrograms`: keep programs with
`stop > gridStart && start < gridEnd`. -/
def filterWindow (progs : List EPGProgram) (gridStart gridEnd : Int) : List EPGProgram :=
  progs.filter (fun p => decide (gridStart < p.stop) && decide (p.start < gridEnd))

/-- The clipped start used by the grid renderer: `Math.max(start, gridStart)`. -/
def clipStart (p : EPGProgram) (gridStart : Int) : Int :=
  max p.start gridStart

/-- The clipped stop used by the grid renderer: `Math.min(stop, gridEnd)`. -/
def clipStop (p : EPGProgram) (gridEnd : Int) : Int :=
  min p.stop gridEnd

/-! ## Guide parser (`parseXMLTV`)

The DOM document handed to `parseXMLTV` is modelled structurally: a possible
`parsererror` element, the list of `channel` elements and the list of
`programme` elements, each element exposing the attributes and child text the
parser reads.  `parseXMLTVDate` is total on well-formed attribute strings and
yields a millisecond timestamp; its result is modelled directly as `Int`. -/

/-- A `channel` element: `id` attribute, `display-name` child text, and the
`src` attribute of the first `icon` child (each absent when missing). -/
structure ChannelEl where
  id : Option String
  displayName : Option String
  iconSrc : Option String
  deriving DecidableEq, Repr

/-- A `programme` element: `channel`/`start`/`stop` attributes (the timestamp
attributes already decoded to `Int` milliseconds) and the child texts read by
the parser. -/
structure ProgrammeEl where
  channel : Option String
  start : Option Int
  stop : Option Int
  title : Option String
  desc : Option String
  category : Option String
  iconSrc : Option String
  deriving DecidableEq, Repr

/-- The parsed DOM: whether a `parsererror` element is present, plus all
`channel` and `programme` elements in document order. -/
structure XMLDoc where
  parserError : Bool
  channelEls : List ChannelEl
  programmeEls : List ProgrammeEl
  deriving DecidableEq, Repr

/-- `Map.set` on an insertion-ordered association list: update in place if
the key is present, otherwise append. -/
def mapSet {α : Type} (m : List (String × α)) (k : String) (v : α) :
    List (String × α) :=
  match m with
  | [] => [(k, v)]
  | (k₁, v₁) :: rest =>
    if k₁ = k then (k, v) :: rest else (k₁, v₁) :: mapSet rest k v

/-- `Map.get` on an association list. -/
def mapGet {α : Type} (m : List (String × α)) (k : String) : Option α :=
  (m.find? (fun e => e.1 == k)).map (fun e => e.2)

/-- `Map.has` on an association list. -/
def mapHas {α : Type} (m : List (String × α)) (k : String) : Bool :=
  (mapGet m k).isSome

/-- `programs.get(channelId)!.push(program)`: append to the list stored at
the key. -/
def mapPush (m : List (String × List EPGProgram)) (k : String)
    (p : EPGProgram) : List (String × List EPGProgram) :=
  m.map (fun e => if e.1 = k then (e.1, e.2 ++ [p]) else e)

/-- One iteration of the channel-element loop of `parseXMLTV`: skip elements
without an `id`; the display name defaults to the id. -/
def addChannel (acc : EPGData) (el : ChannelEl) : EPGData :=
  match el.id with
  | none => acc
  | some id =>
    { channels := mapSet acc.channels id ⟨id, el.displayName.getD id, el.iconSrc⟩,
      programs := mapSet acc.programs id [] }

/-- One iteration of the programme-element loop of `parseXMLTV`: skip
elements missing `channel`, `start` or `stop`; the title defaults to
"Untitled"; push onto the channel slot, creating it when absent. -/
def addProgramme (acc : EPGData) (el : ProgrammeEl) : EPGData :=
  match el.channel, el.start, el.stop with
  | some cid, some st, some sp =>
    let prog : EPGProgram :=
      ⟨cid, el.title.getD "Untitled", el.desc, st, sp, el.category, el.iconSrc⟩
    let withSlot := if mapHas acc.programs cid then acc.programs
      else mapSet acc.programs cid []
    { acc with programs := mapPush withSlot cid prog }
  | _, _, _ => acc

/-- Insert a program into a list sorted by `start` (helper realising the
comparator `(a, b) => a.start - b.start`). -/
def insertByStart (p : EPGProgram) : List EPGProgram → List EPGProgram
  | [] => [p]
  | q :: rest =>
    if p.start ≤ q.start then p :: q :: rest else q :: insertByStart p rest

/-- `progs.sort((a, b) => a.start - b.start)`: sort ascending by start. -/
def sortByStart : List EPGProgram → List EPGProgram
  | [] => []
  | p :: rest => insertByStart p (sortByStart rest)

/-- `parseXMLTV`: fail on a `parsererror` element, otherwise collect
channels, collect programmes, and sort each channel's program list by start
time. -/
def parseXMLTV (doc : XMLDoc) : Except String EPGData :=
  if doc.parserError then .error "Invalid XMLTV format"
  else
    let afterChannels := doc.channelEls.foldl addChannel ⟨[], []⟩
    let afterProgrammes := doc.programmeEls.foldl addProgramme afterChannels
    .ok { afterProgrammes with
          programs := afterProgrammes.programs.map
            (fun e => (e.1, sortByStart e.2)) }

/-! ## Fuzzy name matching (the normalized-name tier)

Three consumers implement the tier: `EPGOverlay` (video overlay),
`EPGGrid.findPrograms`, and `ChannelList.findEpgProgram` (channel cards).
All normalize with `name.toLowerCase().replace(/[^a-z0-9]/g, "")`. -/

/-- The shared normalization: lowercase, then keep only `a`–`z` and `0`–`9`. -/
def normalizeName (s : String) : String :=
  String.mk ((s.toList.map Char.toLower).filter
    (fun c => (decide ('a' ≤ c) && decide (c ≤ 'z')) ||
      (decide ('0' ≤ c) && decide (c ≤ '9'))))

/-- Acceptance of one guide channel by `EPGOverlay` for one playlist name:
empty normalized names are skipped by `continue`; otherwise equality or
containment in either direction, with no length guard. -/
def overlayAccepts (name guideName : String) : Bool :=
  let normalized := normalizeName name
  let epgNorm := normalizeName guideName
  !(normalized == "") &&
    (epgNorm == normalized ||
      decide (normalized.toList <:+: epgNorm.toList) ||
      decide (epgNorm.toList <:+: normalized.toList))

/-- Acceptance of one guide channel by `EPGGrid.findPrograms`: equality, or
containment in either direction guarded only by the playlist-side normalized
length being greater than 3. -/
def gridAccepts (name guideName : String) : Bool :=
  let norm := normalizeName name
  let epgNorm := normalizeName guideName
  epgNorm == norm ||
    (decide (3 < norm.length) &&
      (decide (norm.toList <:+: epgNorm.toList) ||
        decide (epgNorm.toList <:+: norm.toList)))

/-- Acceptance of one guide channel by `ChannelList.findEpgProgram`: same
shape as the overlay site (no length guard). -/
def cardAccepts (name guideName : String) : Bool :=
  let norm := normalizeName name
  let epgNorm := normalizeName guideName
  !(norm == "") &&
    (epgNorm == norm ||
      decide (norm.toList <:+: epgNorm.toList) ||
      decide (epgNorm.toList <:+: norm.toList))

/-! ## Document fetcher (`decompressGzip`, `fetchWithCorsProxy`,
`loadEPGFromURL`)

A network response is modelled by what the two possible body reads would
yield: `gzBody` is the outcome of piping the body through the gzip
decompression stream (when the runtime has the primitive), `rawText` is the
outcome of `response.text()`.  The runtime's possession of
`DecompressionStream` is an explicit boolean parameter, and `DOMParser` is a
parameter `domParse` producing the structural document model. -/

deriving instance DecidableEq for Except

/-- A successful (`resp.ok`) fetch response, by its two possible body
reads. -/
structure Resp where
  gzBody : Except String String
  rawText : String
  deriving DecidableEq, Repr

/-- `decompressGzip`: use the streaming primitive when available, otherwise
throw without attempting any fallback decoder. -/
def decompressGzip (hasDecompressionStream : Bool) (r : Resp) :
    Except String String :=
  if hasDecompressionStream then r.gzBody
  else .error "Browser does not support DecompressionStream for .gz files"

/-- `fetchWithCorsProxy`: the direct attempt followed by the fixed proxy
list; each attempt is `some` response when the request succeeded with
`resp.ok`, `none` when it threw or was not ok.  The first success wins;
exhausting the list throws. -/
def fetchWithCorsProxy (attempts : List (Option Resp)) : Except String Resp :=
  match attempts.findSome? id with
  | some r => .ok r
  | none => .error "Failed to fetch EPG data. Direct fetch and CORS proxies all failed. The EPG server may be down, or it blocks browser requests."

/-- The gzip sniff `url.endsWith(".gz") || url.endsWith(".gzip")`, the
suffix tests expressed on the character lists. -/
def urlIsGzipped (url : String) : Bool :=
  decide (".gz".toList <:+ url.toList) || decide (".gzip".toList <:+ url.toList)

/-- `loadEPGFromURL`: fetch, gzip-detect by URL suffix, decompress (wrapping
any decompression error in a single generic message), reject empty bodies,
sniff for an XML-like prefix, then parse. -/
def loadEPGFromURL (domParse : String → XMLDoc)
    (hasDecompressionStream : Bool) (url : String)
    (attempts : List (Option Resp)) : Except String EPGData :=
  match fetchWithCorsProxy attempts with
  | .error e => .error e
  | .ok response =>
    let isGzipped := urlIsGzipped url
    let textResult : Except String String :=
      if isGzipped then
        match decompressGzip hasDecompressionStream response with
        | .ok t => .ok t
        | .error _ => .error "Failed to decompress gzipped EPG file. Try a non-.gz URL."
      else .ok response.rawText
    match textResult with
    | .error e => .error e
    | .ok text =>
      if text.trim == "" then .error "EPG file is empty"
      else
        let trimmed := text.trim
        if !(trimmed.startsWith "<?xml" || trimmed.startsWith "<tv" ||
            trimmed.startsWith "<programme") then
          .error "EPG response is not valid XML. The file may be compressed (gzip) or the URL may not point to an XMLTV file."
        else parseXMLTV (domParse text)

/-! ## Refresh coordinator (store `loadEPG` action, Sidebar `doRefresh`)

The EPG-relevant slice of the store state.  The `loadEPG` action runs in two
phases around its single suspension point (`await loadEPGFromURL(url)`):
a synchronous prefix that unconditionally marks the state loading, clears
the error, records the url and issues the fetch, and a completion phase that
either installs the new Guide with a refresh timestamp or records the error
message.  `loadEPGSync` returns the post-prefix state together with the fact
that a fetch was issued (the body proceeds to `await loadEPGFromURL(url)`
unconditionally — it contains no in-flight check). -/

/-- The EPG slice of the store state. -/
structure CoordState where
  epgData : Option EPGData
  epgLoading : Bool
  epgError : Option String
  epgUrl : Option String
  epgLastRefresh : Option Int
  deriving DecidableEq, Repr

/-- Synchronous prefix of `loadEPG`:
`set({ epgLoading: true, epgError: null, epgUrl: url })`, then the fetch for
`url` is issued (second component `true`: there is no guard). -/
def loadEPGSync (s : CoordState) (url : String) : CoordState × Bool :=
  ({ s with epgLoading := true, epgError := none, epgUrl := some url }, true)

/-- The whole `loadEPG` action, parameterised by the outcome of
`loadEPGFromURL(url)` and the completion instant `t` (`Date.now()`).
Success installs the data and the timestamp; failure records the message. -/
def loadEPG (s : CoordState) (url : String) (outcome : Except String EPGData)
    (t : Int) : CoordState :=
  let s₁ := (loadEPGSync s url).1
  match outcome with
  | .ok data =>
    { s₁ with epgData := some data, epgLoading := false, epgLastRefresh := some t }
  | .error msg => { s₁ with epgError := some msg, epgLoading := false }

/-- The Sidebar auto-refresh callback `doRefresh`:
`if (epgUrl && !epgLoading) loadEPG(epgUrl)` — the scheduled caller guards
the unguarded store action.  Returns the resulting state and whether a fetch
was issued. -/
def doRefresh (s : CoordState) : CoordState × Bool :=
  match s.epgUrl with
  | some url =>
    if !(url == "") && !s.epgLoading then loadEPGSync s url else (s, false)
  | none => (s, false)

/-! ## Concrete instances used by the witnesses and counterexamples

The spec's concrete scenario: channel `bbc1`, "News" 10:00–10:30 and
"Weather" 10:30–10:45.  Instants are minutes since midnight. -/

/-- "News", 10:00–10:30. -/
def newsProg : EPGProgram := ⟨"bbc1", "News", none, 600, 630, none, none⟩

/-- "Weather", 10:30–10:45. -/
def weatherProg : EPGProgram := ⟨"bbc1", "Weather", none, 630, 645, none, none⟩

/-- A degenerate program (`stop = start`). -/
def degenerateProg : EPGProgram := ⟨"x", "Degenerate", none, 500, 500, none, none⟩

/-- A document declaring channel `bbc1` and its two programmes, Weather
listed before News. -/
def demoDoc : XMLDoc :=
  ⟨false, [⟨some "bbc1", some "BBC One", none⟩],
    [⟨some "bbc1", some 630, some 645, some "Weather", none, none, none⟩,
     ⟨some "bbc1", some 600, some 630, some "News", none, none, none⟩]⟩

/-- The Guide `parseXMLTV` produces from `demoDoc`. -/
def demoGuide : EPGData :=
  ⟨[("bbc1", ⟨"bbc1", "BBC One", none⟩)], [("bbc1", [newsProg, weatherProg])]⟩

/-- A coordinator state with a load in flight, a previously loaded Guide and
a recorded error. -/
def demoLoadingState : CoordState :=
  ⟨some demoGuide, true, some "previous failure", some "https://example.com/guide.xml", some 111⟩

/-- A trivial stand-in for `DOMParser` (never reached by the gzip
counterexamples). -/
def demoDomParse : String → XMLDoc := fun _ => ⟨false, [], []⟩

/-! ## Helper lemmas -/

/-- `Array.prototype.find` semantics: a hit satisfies the predicate and is
preceded only by misses. -/
theorem find?_some_first {α : Type} (f : α → Bool) (l : List α) (a : α)
    (h : l.find? f = some a) :
    f a = true ∧ ∃ l₁ l₂, l = l₁ ++ a :: l₂ ∧ ∀ b ∈ l₁, f b = false := by
  induction l with
  | nil => simp [List.find?] at h
  | cons x xs ih =>
    by_cases hx : f x = true
    · rw [List.find?_cons_of_pos _ hx] at h
      obtain rfl : x = a := by injection h
      exact ⟨hx, [], xs, rfl, by simp⟩
    · rw [List.find?_cons_of_neg _ hx] at h
      obtain ⟨hfa, l₁, l₂, rfl, hmiss⟩ := ih h
      refine ⟨hfa, x :: l₁, l₂, rfl, ?_⟩
      intro b hb
      rcases List.mem_cons.mp hb with rfl | hb
      · exact Bool.eq_false_iff.mpr hx
      · exact hmiss b hb

theorem mem_insertByStart (p x : EPGProgram) (l : List EPGProgram) :
    x ∈ insertByStart p l ↔ x = p ∨ x ∈ l := by
  induction l with
  | nil => simp [insertByStart]
  | cons q rest ih =>
    by_cases hle : p.start ≤ q.start
    · simp [insertByStart, hle]
    · simp only [insertByStart, if_neg hle, List.mem_cons, ih]
      tauto

theorem sorted_insertByStart (p : EPGProgram) (l : List EPGProgram)
    (h : l.Sorted (fun a b => a.start ≤ b.start)) :
    (insertByStart p l).Sorted (fun a b => a.start ≤ b.start) := by
  induction l with
  | nil => simp [insertByStart]
  | cons q rest ih =>
    rw [List.sorted_cons] at h
    obtain ⟨hq, hrest⟩ := h
    by_cases hle : p.start ≤ q.start
    · rw [insertByStart, if_pos hle, List.sorted_cons]
      refine ⟨?_, List.sorted_cons.mpr ⟨hq, hrest⟩⟩
      intro b hb
      rcases List.mem_cons.mp hb with rfl | hb
      · exact hle
      · exact le_trans hle (hq b hb)
    · rw [insertByStart, if_neg hle, List.sorted_cons]
      refine ⟨?_, ih hrest⟩
      intro b hb
      rcases (mem_insertByStart p b rest).mp hb with rfl | hb
      · exact le_of_lt (lt_of_not_le hle)
      · exact hq b hb

theorem sorted_sortByStart (l : List EPGProgram) :
    (sortByStart l).Sorted (fun a b => a.start ≤ b.start) := by
  induction l with
  | nil => simp [sortByStart]
  | cons p rest ih => exact sorted_insertByStart p (sortByStart rest) ih

/-! ## Claim theorems -/

/-- C1, counterexample: in a state whose load is already in flight
(`epgLoading = true`), calling `loadEPG` again for the very same url issues
a second fetch and changes the state (the recorded error is cleared), so the
call is not a no-op. -/
theorem loadEPG_reentry_cex :
    (loadEPGSync demoLoadingState "https://example.com/guide.xml").2 = true ∧
    (loadEPGSync demoLoadingState "https://example.com/guide.xml").1 ≠
      demoLoadingState := by
  exact ⟨rfl, by decide⟩

/-- C1, amended: the store action `loadEPG` itself performs no in-flight
check — invoked in any state it issues a fetch and overwrites
`epgLoading`/`epgError`/`epgUrl`; the at-most-one-in-flight behaviour is
enforced by the scheduled caller `doRefresh`, which is a no-op issuing no
fetch whenever `epgLoading` is true. -/
theorem loadEPG_guard_in_caller (s : CoordState) (h : s.epgLoading = true) :
    doRefresh s = (s, false) ∧
    ∀ url, loadEPGSync s url =
      ({ s with epgLoading := true, epgError := none, epgUrl := some url }, true) := by
  constructor
  · unfold doRefresh
    match hu : s.epgUrl with
    | none => rfl
    | some url => simp [h]
  · intro url
    rfl

/-- Witness for the amended C1 at a concrete in-flight state. -/
theorem loadEPG_guard_in_caller_witness :
    doRefresh demoLoadingState = (demoLoadingState, false) :=
  (loadEPG_guard_in_caller demoLoadingState rfl).1

/-- C2: a failed `loadEPG` records the error message and stops loading but
leaves the previously loaded Guide and the last-refresh timestamp untouched;
a successful `loadEPG` installs the new Guide and the fresh timestamp. -/
theorem loadEPG_failure_keeps_guide (s : CoordState) (url msg : String)
    (t : Int) (d : EPGData) :
    (loadEPG s url (.error msg) t).epgData = s.epgData ∧
    (loadEPG s url (.error msg) t).epgLastRefresh = s.epgLastRefresh ∧
    (loadEPG s url (.error msg) t).epgError = some msg ∧
    (loadEPG s url (.error msg) t).epgLoading = false ∧
    (loadEPG s url (.ok d) t).epgData = some d ∧
    (loadEPG s url (.ok d) t).epgLastRefresh = some t :=
  ⟨rfl, rfl, rfl, rfl, rfl, rfl⟩

/-- C9, counterexample: a well-formed document with no channel and no
programme elements parses successfully to an empty Guide — `parseXMLTV` has
no empty-result check. -/
theorem parseXMLTV_empty_ok_cex :
    parseXMLTV ⟨false, [], []⟩ = .ok ⟨[], []⟩ := rfl

/-- C9, amended: `parseXMLTV` fails exactly when the document structure is
malformed (a `parsererror` element is present); an empty parse result is
returned as an empty Guide success. -/
theorem parseXMLTV_fails_iff_malformed (doc : XMLDoc) :
    parseXMLTV doc = .error "Invalid XMLTV format" ↔ doc.parserError = true := by
  unfold parseXMLTV
  by_cases h : doc.parserError = true <;> simp [h]

/-- C10: the temporal queries are total — on the empty list both return
`none`, and on any list they always return either `none` or some member of
the list, never failing. -/
theorem temporal_queries_total :
    (∀ now : Int, getCurrentProgram [] now = none ∧ getNextProgram [] now = none) ∧
    (∀ (progs : List EPGProgram) (now : Int),
        getCurrentProgram progs now = none ∨
          ∃ p, getCurrentProgram progs now = some p ∧ p ∈ progs) ∧
    (∀ (progs : List EPGProgram) (now : Int),
        getNextProgram progs now = none ∨
          ∃ p, getNextProgram progs now = some p ∧ p ∈ progs) := by
  refine ⟨fun now => ⟨rfl, rfl⟩, ?_, ?_⟩ <;> intro progs now
  · cases h : getCurrentProgram progs now with
    | none => exact Or.inl rfl
    | some p =>
      rw [getCurrentProgram] at h
      exact Or.inr ⟨p, rfl, List.mem_of_find?_eq_some h⟩
  · cases h : getNextProgram progs now with
    | none => exact Or.inl rfl
    | some p =>
      rw [getNextProgram] at h
      exact Or.inr ⟨p, rfl, List.mem_of_find?_eq_some h⟩

/-- C3: every channel's program list in a successfully parsed Guide is
sorted non-decreasing by start time. -/
theorem parseXMLTV_programs_sorted (doc : XMLDoc) (g : EPGData)
    (h : parseXMLTV doc = .ok g) :
    ∀ e ∈ g.programs, e.2.Sorted (fun a b => a.start ≤ b.start) := by
  unfold parseXMLTV at h
  by_cases hpe : doc.parserError = true
  · simp [hpe] at h
  · simp only [hpe, if_false] at h
    injection h with h
    subst h
    intro e he
    obtain ⟨e₁, _, rfl⟩ := List.mem_map.mp he
    exact sorted_sortByStart e₁.2

/-- Witness for C3: the demo document parses to the demo Guide, whose only
channel carries its two programmes re-ordered by start. -/
theorem parseXMLTV_programs_sorted_witness :
    List.Sorted (fun a b : EPGProgram => a.start ≤ b.start)
      [newsProg, weatherProg] :=
  parseXMLTV_programs_sorted demoDoc demoGuide (by decide)
    ("bbc1", [newsProg, weatherProg]) (by decide)

/-- C5: `getCurrentProgram` returns the first program whose half-open
interval `[start, stop)` covers `now` (and `none` exactly when no interval
does); `getNextProgram` returns the first program with `start > now`.  On
the spec scenario, at 10:30 the current program is Weather (stop exclusive,
start inclusive) and the program after 10:00 is Weather. -/
theorem current_next_program_spec :
    (∀ (progs : List EPGProgram) (now : Int) (p : EPGProgram),
        getCurrentProgram progs now = some p →
        (p.start ≤ now ∧ now < p.stop) ∧
        ∃ l₁ l₂, progs = l₁ ++ p :: l₂ ∧
          ∀ q ∈ l₁, ¬(q.start ≤ now ∧ now < q.stop)) ∧
    (∀ (progs : List EPGProgram) (now : Int),
        getCurrentProgram progs now = none ↔
          ∀ p ∈ progs, ¬(p.start ≤ now ∧ now < p.stop)) ∧
    (∀ (progs : List EPGProgram) (now : Int) (p : EPGProgram),
        getNextProgram progs now = some p →
        now < p.start ∧
        ∃ l₁ l₂, progs = l₁ ++ p :: l₂ ∧ ∀ q ∈ l₁, ¬(now < q.start)) ∧
    getCurrentProgram [newsProg, weatherProg] 630 = some weatherProg ∧
    getCurrentProgram [newsProg, weatherProg] 615 = some newsProg ∧
    getNextProgram [newsProg, weatherProg] 600 = some weatherProg := by
  refine ⟨?_, ?_, ?_, by decide, by decide, by decide⟩
  · intro progs now p h
    obtain ⟨hf, l₁, l₂, rfl, hmiss⟩ := find?_some_first _ _ _ h
    simp only [Bool.and_eq_true, decide_eq_true_eq] at hf
    refine ⟨hf, l₁, l₂, rfl, ?_⟩
    intro q hq
    have := hmiss q hq
    simpa [Bool.and_eq_true, decide_eq_true_eq] using this
  · intro progs now
    rw [getCurrentProgram, List.find?_eq_none]
    constructor
    · intro hall p hp
      have := hall p hp
      simpa [Bool.and_eq_true, decide_eq_true_eq] using this
    · intro hall p hp
      have := hall p hp
      simpa [Bool.and_eq_true, decide_eq_true_eq] using this
  · intro progs now p h
    obtain ⟨hf, l₁, l₂, rfl, hmiss⟩ := find?_some_first _ _ _ h
    simp only [decide_eq_true_eq] at hf
    refine ⟨hf, l₁, l₂, rfl, ?_⟩
    intro q hq
    have := hmiss q hq
    simpa [decide_eq_true_eq] using this

/-- Witness for C5 at the spec scenario: applying the first-match
characterisation to the hit at 10:15 yields that News covers 10:15. -/
theorem current_next_program_spec_witness :
    newsProg.start ≤ 615 ∧ 615 < newsProg.stop :=
  (current_next_program_spec.1 [newsProg, weatherProg] 615 newsProg (by decide)).1

/-- C6: `getProgramProgress` always lies in `[0, 100]`, equals 0 at
`now = start`, returns 0 on degenerate intervals (`stop <= start`), is
clamped to 100 at or after `stop` for genuine intervals, and is monotone
non-decreasing in `now` for a fixed program with `stop > start`. -/
theorem progress_spec :
    (∀ (p : EPGProgram) (now : Int),
        0 ≤ getProgramProgress p now ∧ getProgramProgress p now ≤ 100) ∧
    (∀ p : EPGProgram, getProgramProgress p p.start = 0) ∧
    (∀ (p : EPGProgram) (now : Int), p.stop ≤ p.start →
        getProgramProgress p now = 0) ∧
    (∀ (p : EPGProgram) (now : Int), p.start < p.stop → p.stop ≤ now →
        getProgramProgress p now = 100) ∧
    (∀ (p : EPGProgram) (n₁ n₂ : Int), p.start < p.stop → n₁ ≤ n₂ →
        getProgramProgress p n₁ ≤ getProgramProgress p n₂) := by
  refine ⟨?_, ?_, ?_, ?_, ?_⟩
  · intro p now
    dsimp only [getProgramProgress]
    split
    · norm_num
    · exact ⟨le_min (by norm_num) (le_max_left _ _), min_le_left _ _⟩
  · intro p
    dsimp only [getProgramProgress]
    split
    · rfl
    · simp
  · intro p now h
    dsimp only [getProgramProgress]
    rw [if_pos]
    exact sub_nonpos.mpr (by exact_mod_cast h)
  · intro p now h₁ h₂
    have hd : (0 : ℚ) < (p.stop : ℚ) - (p.start : ℚ) :=
      sub_pos.mpr (by exact_mod_cast h₁)
    dsimp only [getProgramProgress]
    rw [if_neg (not_le.mpr hd)]
    have helap : (p.stop : ℚ) - (p.start : ℚ) ≤ (now : ℚ) - (p.start : ℚ) :=
      sub_le_sub_right (by exact_mod_cast h₂) _
    have hratio : (1 : ℚ) ≤ ((now : ℚ) - (p.start : ℚ)) / ((p.stop : ℚ) - (p.start : ℚ)) :=
      (one_le_div hd).mpr helap
    have h100 : (100 : ℚ) ≤ ((now : ℚ) - (p.start : ℚ)) / ((p.stop : ℚ) - (p.start : ℚ)) * 100 := by
      calc (100 : ℚ) = 1 * 100 := by norm_num
      _ ≤ ((now : ℚ) - (p.start : ℚ)) / ((p.stop : ℚ) - (p.start : ℚ)) * 100 :=
          mul_le_mul_of_nonneg_right hratio (by norm_num)
    rw [max_eq_right (le_trans (by norm_num) h100), min_eq_left h100]
  · intro p n₁ n₂ h₁ h₁₂
    have hd : (0 : ℚ) < (p.stop : ℚ) - (p.start : ℚ) :=
      sub_pos.mpr (by exact_mod_cast h₁)
    dsimp only [getProgramProgress]
    rw [if_neg (not_le.mpr hd), if_neg (not_le.mpr hd)]
    have hnum : ((n₁ : ℚ) - (p.start : ℚ)) ≤ ((n₂ : ℚ) - (p.start : ℚ)) :=
      sub_le_sub_right (by exact_mod_cast h₁₂) _
    have hx : ((n₁ : ℚ) - (p.start : ℚ)) / ((p.stop : ℚ) - (p.start : ℚ)) * 100 ≤
        ((n₂ : ℚ) - (p.start : ℚ)) / ((p.stop : ℚ) - (p.start : ℚ)) * 100 :=
      mul_le_mul_of_nonneg_right ((div_le_div_iff_of_pos_right hd).mpr hnum) (by norm_num)
    exact min_le_min (le_refl _) (max_le_max (le_refl _) hx)

/-- Witness for C6: concrete evaluations of the clamp, the degenerate guard
and monotonicity on the demo programs. -/
theorem progress_spec_witness :
    getProgramProgress newsProg 645 = 100 ∧
    getProgramProgress degenerateProg 700 = 0 ∧
    getProgramProgress newsProg 610 ≤ getProgramProgress newsProg 620 :=
  ⟨progress_spec.2.2.2.1 newsProg 645 (by decide) (by decide),
   progress_spec.2.2.1 degenerateProg 700 (by decide),
   progress_spec.2.2.2.2 newsProg 610 620 (by decide) (by decide)⟩

/-- C7: the grid's window filter keeps exactly the programs whose
`[start, stop)` interval intersects the window (`stop > windowStart` and
`start < windowEnd`), and the renderer's clipped start/stop of every kept
program lie inside the window. -/
theorem window_overlap_spec :
    (∀ (progs : List EPGProgram) (ws we : Int) (p : EPGProgram),
        p ∈ filterWindow progs ws we ↔ p ∈ progs ∧ ws < p.stop ∧ p.start < we) ∧
    (∀ (progs : List EPGProgram) (ws we : Int) (p : EPGProgram), ws ≤ we →
        p ∈ filterWindow progs ws we →
        ws ≤ clipStart p ws ∧ clipStart p ws ≤ we ∧
        ws ≤ clipStop p we ∧ clipStop p we ≤ we) := by
  have hmem : ∀ (progs : List EPGProgram) (ws we : Int) (p : EPGProgram),
      p ∈ filterWindow progs ws we ↔ p ∈ progs ∧ ws < p.stop ∧ p.start < we := by
    intro progs ws we p
    simp [filterWindow, List.mem_filter]
  refine ⟨hmem, ?_⟩
  intro progs ws we p hwe hp
  obtain ⟨-, hstop, hstart⟩ := (hmem progs ws we p).mp hp
  refine ⟨le_max_right _ _, max_le (le_of_lt hstart) hwe,
    le_min (le_of_lt hstop) hwe, min_le_right _ _⟩

/-- Witness for C7: clipping News to the window `[0, 1000)` stays inside the
window. -/
theorem window_overlap_spec_witness :
    0 ≤ clipStart newsProg 0 ∧ clipStart newsProg 0 ≤ 1000 ∧
    0 ≤ clipStop newsProg 1000 ∧ clipStop newsProg 1000 ≤ 1000 :=
  window_overlap_spec.2 [newsProg] 0 1000 newsProg (by decide) (by decide)

/-- C4, counterexample: the overlay and channel-card sites accept a
containment match between the short normalized names "tv" and "mtv" (neither
longer than 3), and the grid site accepts "espnplus" against the
length-2 guide name "es" — so containment is not restricted to pairs in
which both normalized names exceed length 3. -/
theorem nameMatch_length_guard_cex :
    overlayAccepts "TV" "MTV" = true ∧
    cardAccepts "TV" "MTV" = true ∧
    ¬(normalizeName "TV" = normalizeName "MTV") ∧
    ¬(3 < (normalizeName "TV").length ∧ 3 < (normalizeName "MTV").length) ∧
    gridAccepts "ESPN Plus" "ES" = true ∧
    ¬(normalizeName "ESPN Plus" = normalizeName "ES") ∧
    ¬(3 < (normalizeName "ES").length) := by decide

/-- C4, amended: only the grid site carries a length guard, and it tests
only the playlist channel's normalized name (`length > 3`), leaving the
guide side unconstrained; the overlay and channel-card sites accept
containment with no length guard at all, requiring only a nonempty playlist
normalized name; equal normalized names match at every site regardless of
length (subject to that nonemptiness skip). -/
theorem nameMatch_guard_shape (a b : String) :
    (gridAccepts a b = true ↔
      (normalizeName b = normalizeName a ∨
        (3 < (normalizeName a).length ∧
          ((normalizeName a).toList <:+: (normalizeName b).toList ∨
            (normalizeName b).toList <:+: (normalizeName a).toList)))) ∧
    (overlayAccepts a b = true ↔
      (¬normalizeName a = "" ∧
        (normalizeName b = normalizeName a ∨
          (normalizeName a).toList <:+: (normalizeName b).toList ∨
          (normalizeName b).toList <:+: (normalizeName a).toList))) ∧
    (cardAccepts a b = true ↔
      (¬normalizeName a = "" ∧
        (normalizeName b = normalizeName a ∨
          (normalizeName a).toList <:+: (normalizeName b).toList ∨
          (normalizeName b).toList <:+: (normalizeName a).toList))) := by
  refine ⟨?_, ?_, ?_⟩ <;>
    simp [gridAccepts, overlayAccepts, cardAccepts, Bool.and_eq_true,
      Bool.or_eq_true, decide_eq_true_eq, Bool.not_eq_true',
      beq_eq_false_iff_ne, ne_eq, or_assoc]

/-- C8, counterexample: for a gzip-suffixed URL in a runtime without the
decompression primitive, `loadEPGFromURL` surfaces the loader's generic
decompression-failure message, not the distinct unsupported-primitive error
raised inside `decompressGzip`; the very same message is surfaced when the
primitive exists but the stream itself fails, so the surfaced kind does not
distinguish the two. -/
theorem gzip_error_conflated_cex :
    loadEPGFromURL demoDomParse false "https://example.com/guide.xml.gz"
        [some ⟨.ok "<tv></tv>", "raw"⟩] =
      .error "Failed to decompress gzipped EPG file. Try a non-.gz URL." ∧
    ("Failed to decompress gzipped EPG file. Try a non-.gz URL." ≠
      "Browser does not support DecompressionStream for .gz files") ∧
    loadEPGFromURL demoDomParse true "https://example.com/guide.xml.gz"
        [some ⟨.error "corrupt gzip stream", "raw"⟩] =
      .error "Failed to decompress gzipped EPG file. Try a non-.gz URL." := by
  exact ⟨by decide, by decide, by decide⟩

/-- C8, amended: in a runtime lacking the streaming primitive,
`decompressGzip` fails with its distinct unsupported-primitive error, which
`loadEPGFromURL` re-throws as its single decompression-failure error for any
gzip-suffixed URL; no fallback decoder runs and the raw body text is never
parsed (the outcome is independent of the response body and of the XML
parser). -/
theorem gzip_unsupported_no_fallback (domParse : String → XMLDoc)
    (url : String) (attempts : List (Option Resp)) (r : Resp)
    (hgz : urlIsGzipped url = true)
    (hfetch : fetchWithCorsProxy attempts = .ok r) :
    decompressGzip false r =
      .error "Browser does not support DecompressionStream for .gz files" ∧
    loadEPGFromURL domParse false url attempts =
      .error "Failed to decompress gzipped EPG file. Try a non-.gz URL." := by
  refine ⟨rfl, ?_⟩
  simp [loadEPGFromURL, hfetch, hgz, decompressGzip]

/-- Witness for the amended C8: the direct attempt fails, the proxy
succeeds, and the gzip-suffixed load still fails with the wrapped
decompression error. -/
theorem gzip_unsupported_no_fallback_witness :
    loadEPGFromURL demoDomParse false "https://example.com/epg.gzip"
        [none, some ⟨.ok "ignored", "<tv></tv>"⟩] =
      .error "Failed to decompress gzipped EPG file. Try a non-.gz URL." :=
  (gzip_unsupported_no_fallback demoDomParse "https://example.com/epg.gzip"
    [none, some ⟨.ok "ignored", "<tv></tv>"⟩] ⟨.ok "ignored", "<tv></tv>"⟩
    (by decide) (by decide)).2

end IptvEpg
